import Mathlib

/-!
# Verification of the worldmonitor-coolify server core

Shallow embedding of the repository's three core pieces:

* the Redis compatibility layer and JSON cache helpers (`_redis.js` /
  `_upstash-cache.js`, `src/unnamed/part_000`),
* the Express caching adapter, route-TTL policy and AIS WebSocket relay
  (`server.js`, `src/unnamed/part_001`).

Modelling conventions:

* JavaScript values that flow through the cache are modelled by the
  inductive `Json`.  Strings are classified by how the two library
  operations the program applies to them behave: `JStr.jsonOf j` stands
  for a string that `JSON.parse` decodes to `j` (for instance the output
  of `JSON.stringify j`), `JStr.b64 bs` for the output of
  `Buffer.toString('base64')` on the byte sequence `bs`, and
  `JStr.plain s` for any other string, which `JSON.parse` rejects.
  `JSON.parse`/`JSON.stringify` and base64 encode/decode are library
  calls in the source; they are embedded by their round-trip contract
  rather than re-implemented character by character.
* `Buffer.from(x, 'base64')` in Node never throws on a string argument
  (it decodes leniently; the lenient decoding of a string that is not
  genuine base64 output is modelled as an unspecified fixed byte
  sequence `[]`).  On non-strings the encoding argument is ignored:
  Arrays, array-like objects (a `length` property) and the Buffer JSON
  round-trip form `{ type: "Buffer", data: [...] }` build a buffer
  without throwing, while a missing value, `null`, booleans, numbers
  and other objects throw a `TypeError` — see `bufferFromB64`.
* Machine numbers: all sizes and times are `Nat`, statuses are `Int`
  inside JSON values; no arithmetic in the verified code overflows or
  truncates, so no modular reduction is needed.
-/

/-! ## JavaScript value model -/

mutual

inductive Json where
  | null : Json
  | bool (b : Bool) : Json
  | num (n : Int) : Json
  | str (s : JStr) : Json
  | arr (elems : List Json) : Json
  | obj (fields : List (String × Json)) : Json

inductive JStr where
  | plain (s : String) : JStr
  | jsonOf (j : Json) : JStr
  | b64 (bytes : List Nat) : JStr

end

/-- `JSON.parse` on a JS string: succeeds exactly on strings that carry a
JSON document (`none` models the thrown `SyntaxError`). -/
def JSON_parse : JStr → Option Json
  | JStr.jsonOf j => some j
  | JStr.plain _ => none
  | JStr.b64 _ => none

/-- `JSON.stringify` of a (non-string) JS value. -/
def JSON_stringify (j : Json) : JStr := JStr.jsonOf j

/-- Is the JS string the empty string `""`?  `JSON.stringify` output is
never empty; base64 output is empty exactly for the empty byte list. -/
def JStr.isEmptyStr : JStr → Bool
  | JStr.plain s => s = ""
  | JStr.jsonOf _ => false
  | JStr.b64 bs => bs.isEmpty

/-- JavaScript truthiness of a value. -/
def jsTruthy : Json → Bool
  | Json.null => false
  | Json.bool b => b
  | Json.num n => n ≠ 0
  | Json.str s => !s.isEmptyStr
  | Json.arr _ => true
  | Json.obj _ => true

/-! ## Route cache policy (`server.js` lines 46–102) -/

def CACHE_TTLS : List (String × Nat) := [
  ("/api/earthquakes", 60),
  ("/api/opensky", 60),
  ("/api/faa-status", 120),
  ("/api/ais-snapshot", 120),
  ("/api/hackernews", 300),
  ("/api/gdelt-doc", 300),
  ("/api/gdelt-geo", 300),
  ("/api/finnhub", 300),
  ("/api/yahoo-finance", 300),
  ("/api/stock-index", 300),
  ("/api/coingecko", 300),
  ("/api/polymarket", 300),
  ("/api/stablecoin-markets", 300),
  ("/api/cloudflare-outages", 300),
  ("/api/rss-proxy", 300),
  ("/api/theater-posture", 300),
  ("/api/firms-fires", 600),
  ("/api/risk-scores", 600),
  ("/api/macro-signals", 600),
  ("/api/nga-warnings", 600),
  ("/api/etf-flows", 600),
  ("/api/github-trending", 600),
  ("/api/acled", 900),
  ("/api/acled-conflict", 900),
  ("/api/ucdp", 900),
  ("/api/hapi", 900),
  ("/api/temporal-baseline", 900),
  ("/api/arxiv", 1800),
  ("/api/tech-events", 1800),
  ("/api/fred-data", 3600),
  ("/api/worldbank", 3600),
  ("/api/fwdstart", 1800)]

def DEFAULT_TTL : Nat := 120

def NO_CACHE : List String := [
  "/api/debug-env",
  "/api/cache-telemetry",
  "/api/service-status",
  "/api/classify-event",
  "/api/groq-summarize",
  "/api/openrouter-summarize",
  "/api/country-intel",
  "/api/og-story",
  "/api/story"]

/-- JS `path.startsWith(prefix)`, embedded on character data. -/
def jsStartsWith (path pre : String) : Bool := pre.data.isPrefixOf path.data

/-- Own-property lookup `CACHE_TTLS[path]` (request paths begin with `/`
so they never collide with `Object.prototype` members). -/
def lookupExact : List (String × Nat) → String → Option Nat
  | [], _ => none
  | (k, v) :: rest, path => if k = path then some v else lookupExact rest path

/-- The `for (const [prefix, ttl] of Object.entries(CACHE_TTLS))` loop:
first entry (in table order) whose key is a prefix of the path. -/
def firstPrefixTTL : List (String × Nat) → String → Option Nat
  | [], _ => none
  | (k, v) :: rest, path =>
    if jsStartsWith path k then some v else firstPrefixTTL rest path

/-- `getCacheTTL` (`server.js` lines 95–102). -/
def getCacheTTL (path : String) : Nat :=
  match lookupExact CACHE_TTLS path with
  | some v => v
  | none =>
    match firstPrefixTTL CACHE_TTLS path with
    | some v => v
    | none => DEFAULT_TTL

/-- Modelled from the spec: among the table entries whose key is a prefix
of the path, the one with the longest key. -/
def longestPrefixEntry : List (String × Nat) → String → Option (String × Nat)
  | [], _ => none
  | (k, v) :: rest, path =>
    match longestPrefixEntry rest path with
    | none => if jsStartsWith path k then some (k, v) else none
    | some best =>
      if jsStartsWith path k then
        if best.1.length ≤ k.length then some (k, v) else some best
      else some best

/-- Modelled from the spec: TTL resolution by exact match first, else the
longest matching route prefix, else the process-wide default. -/
def specResolveTTL (path : String) : Nat :=
  match lookupExact CACHE_TTLS path with
  | some v => v
  | none =>
    match longestPrefixEntry CACHE_TTLS path with
    | some e => e.2
    | none => DEFAULT_TTL

/-! ### TTL resolution lemmas -/

theorem firstPrefixTTL_some {t : List (String × Nat)} {p : String} {v : Nat}
    (h : firstPrefixTTL t p = some v) :
    ∃ k, (k, v) ∈ t ∧ jsStartsWith p k = true := by
  induction t with
  | nil => simp [firstPrefixTTL] at h
  | cons e rest ih =>
    obtain ⟨k0, v0⟩ := e
    by_cases hk : jsStartsWith p k0 = true
    · simp [firstPrefixTTL, hk] at h
      exact ⟨k0, by simp [h.symm], hk⟩
    · simp [firstPrefixTTL, hk] at h
      obtain ⟨k, hmem, hpre⟩ := ih h
      exact ⟨k, List.mem_cons_of_mem _ hmem, hpre⟩

theorem firstPrefixTTL_none {t : List (String × Nat)} {p : String}
    (h : firstPrefixTTL t p = none) :
    ∀ e ∈ t, jsStartsWith p e.1 = false := by
  induction t with
  | nil => intro e he; simp at he
  | cons e0 rest ih =>
    obtain ⟨k0, v0⟩ := e0
    by_cases hk : jsStartsWith p k0 = true
    · simp [firstPrefixTTL, hk] at h
    · simp [firstPrefixTTL, hk] at h
      intro e he
      rcases List.mem_cons.mp he with heq | hmem
      · subst heq; simpa using hk
      · exact ih h e hmem

theorem longestPrefixEntry_some {t : List (String × Nat)} {p : String}
    {e : String × Nat} (h : longestPrefixEntry t p = some e) :
    e ∈ t ∧ jsStartsWith p e.1 = true := by
  induction t generalizing e with
  | nil => simp [longestPrefixEntry] at h
  | cons e0 rest ih =>
    obtain ⟨k0, v0⟩ := e0
    unfold longestPrefixEntry at h
    rcases hrest : longestPrefixEntry rest p with _ | best
    · rw [hrest] at h
      by_cases hk : jsStartsWith p k0 = true
      · simp [hk] at h
        subst h
        exact ⟨by simp, by simpa using hk⟩
      · simp [hk] at h
    · rw [hrest] at h
      obtain ⟨hbmem, hbpre⟩ := ih hrest
      by_cases hk : jsStartsWith p k0 = true
      · simp [hk] at h
        by_cases hlen : best.1.length ≤ k0.length
        · simp [hlen] at h
          subst h
          exact ⟨by simp, by simpa using hk⟩
        · simp [hlen] at h
          exact ⟨List.mem_cons_of_mem _ (h ▸ hbmem), h ▸ hbpre⟩
      · simp [hk] at h
        exact ⟨List.mem_cons_of_mem _ (h ▸ hbmem), h ▸ hbpre⟩

theorem longestPrefixEntry_none {t : List (String × Nat)} {p : String}
    (h : longestPrefixEntry t p = none) :
    ∀ e ∈ t, jsStartsWith p e.1 = false := by
  induction t with
  | nil => intro e he; simp at he
  | cons e0 rest ih =>
    obtain ⟨k0, v0⟩ := e0
    unfold longestPrefixEntry at h
    rcases hrest : longestPrefixEntry rest p with _ | best
    · rw [hrest] at h
      by_cases hk : jsStartsWith p k0 = true
      · simp [hk] at h
      · intro e he
        rcases List.mem_cons.mp he with heq | hmem
        · subst heq; simpa using hk
        · exact ih hrest e hmem
    · rw [hrest] at h
      by_cases hk : jsStartsWith p k0 = true
      · by_cases hlen : best.1.length ≤ k0.length <;> simp [hk, hlen] at h
      · simp [hk] at h

/-- Any two table keys that both prefix a common path are comparable, and
all prefix-comparable pairs in `CACHE_TTLS` carry the same TTL. -/
theorem cacheTTLs_coherent :
    ∀ e1 ∈ CACHE_TTLS, ∀ e2 ∈ CACHE_TTLS,
      jsStartsWith e2.1 e1.1 = true → e1.2 = e2.2 := by decide

theorem matching_ttls_agree {p : String} {e1 e2 : String × Nat}
    (h1 : e1 ∈ CACHE_TTLS) (h2 : e2 ∈ CACHE_TTLS)
    (hp1 : jsStartsWith p e1.1 = true) (hp2 : jsStartsWith p e2.1 = true) :
    e1.2 = e2.2 := by
  have d1 : e1.1.data <+: p.data := by
    simpa [jsStartsWith, List.isPrefixOf_iff_prefix] using hp1
  have d2 : e2.1.data <+: p.data := by
    simpa [jsStartsWith, List.isPrefixOf_iff_prefix] using hp2
  rcases List.prefix_or_prefix_of_prefix d1 d2 with hc | hc
  · exact cacheTTLs_coherent e1 h1 e2 h2
      (by simpa [jsStartsWith, List.isPrefixOf_iff_prefix] using hc)
  · exact (cacheTTLs_coherent e2 h2 e1 h1
      (by simpa [jsStartsWith, List.isPrefixOf_iff_prefix] using hc)).symm

/-- C2: the implementation's TTL resolution agrees with the spec's
exact-match-then-longest-prefix-else-default resolution on every path. -/
theorem getCacheTTL_eq_specResolveTTL (path : String) :
    getCacheTTL path = specResolveTTL path := by
  unfold getCacheTTL specResolveTTL
  rcases hex : lookupExact CACHE_TTLS path with _ | v
  · rcases hf : firstPrefixTTL CACHE_TTLS path with _ | v1
    · rcases hl : longestPrefixEntry CACHE_TTLS path with _ | e
      · rfl
      · obtain ⟨hmem, hpre⟩ := longestPrefixEntry_some hl
        have := firstPrefixTTL_none hf _ hmem
        rw [hpre] at this
        cases this
    · rcases hl : longestPrefixEntry CACHE_TTLS path with _ | e
      · obtain ⟨k, hmem, hpre⟩ := firstPrefixTTL_some hf
        have := longestPrefixEntry_none hl _ hmem
        simp only at this
        rw [hpre] at this
        cases this
      · obtain ⟨k, hmem, hpre⟩ := firstPrefixTTL_some hf
        obtain ⟨hmem2, hpre2⟩ := longestPrefixEntry_some hl
        exact matching_ttls_agree hmem hmem2 hpre hpre2
  · rfl

/-! ## Key-value store model (`_redis.js` and the cache helpers, part_000)

The store maps keys to strings with an optional absolute expiry deadline.
`redisAvailable` models `getCacheRedis()` / `this._client` being non-null;
`getFails` / `setFails` model the underlying transport call throwing. -/

structure World where
  redisAvailable : Bool
  getFails : Bool
  setFails : Bool
  now : Nat
  cache : List (String × JStr × Option Nat)

def cacheFind : List (String × JStr × Option Nat) → String → Option (JStr × Option Nat)
  | [], _ => none
  | (k, v, d) :: rest, key => if k = key then some (v, d) else cacheFind rest key

/-- The string visible under `key` at time `now`: an entry lives until its
deadline (entries without a deadline never expire). -/
def cacheLookup (entries : List (String × JStr × Option Nat)) (now : Nat)
    (key : String) : Option JStr :=
  match cacheFind entries key with
  | some (v, some d) => if now < d then some v else none
  | some (v, none) => some v
  | none => none

def cacheUpsert (entries : List (String × JStr × Option Nat)) (key : String)
    (v : JStr) (d : Option Nat) : List (String × JStr × Option Nat) :=
  match entries with
  | [] => [(key, v, d)]
  | (k0, v0, d0) :: rest =>
    if k0 = key then (key, v, d) :: rest
    else (k0, v0, d0) :: cacheUpsert rest key v d

/-- `Redis.get` (part_000 lines 63–78): `null` without a client, on a
missing key or on a transport error; otherwise the stored string,
JSON-parsed when it parses and raw when it does not. -/
def Redis_get (w : World) (key : String) : Json :=
  if w.redisAvailable = false then Json.null
  else if w.getFails = true then Json.null
  else
    match cacheLookup w.cache w.now key with
    | none => Json.null
    | some raw =>
      match JSON_parse raw with
      | some j => j
      | none => Json.str raw

/-- `Redis.set` (part_000 lines 80–94): serializes non-string values as
JSON, writes with expiry when `options.ex` is truthy, swallows transport
errors; returns the JS result (`'OK'` or `null`). -/
def Redis_set (w : World) (key : String) (value : Json) (ex : Option Nat) :
    World × Json :=
  if w.redisAvailable = false then (w, Json.null)
  else
    let serialized : JStr :=
      match value with
      | Json.str s => s
      | v => JSON_stringify v
    if w.setFails = true then (w, Json.null)
    else
      let deadline : Option Nat :=
        match ex with
        | some ttl => if ttl ≠ 0 then some (w.now + ttl) else none
        | none => none
      ({w with cache := cacheUpsert w.cache key serialized deadline},
       Json.str (JStr.plain "OK"))

/-- One argument of the variadic `mget(...keys)`: a single key or an
array of keys (`keys.flat()` splices the arrays one level). -/
def jsFlat : List (String ⊕ List String) → List String
  | [] => []
  | (Sum.inl s) :: rest => s :: jsFlat rest
  | (Sum.inr l) :: rest => l ++ jsFlat rest

/-- `Redis.mget` (part_000 lines 116–129).  Note the no-client branch
maps over the raw argument list while the other branches map over the
flattened key list. -/
def Redis_mget (w : World) (args : List (String ⊕ List String)) : List Json :=
  if w.redisAvailable = false then args.map (fun _ => Json.null)
  else if w.getFails = true then (jsFlat args).map (fun _ => Json.null)
  else
    (jsFlat args).map (fun key =>
      match cacheLookup w.cache w.now key with
      | none => Json.null
      | some raw =>
        match JSON_parse raw with
        | some j => j
        | none => Json.str raw)

/-- `setCachedJson` (part_000 lines 225–235): `false` without a client;
otherwise calls `Redis.set` — whose result it ignores — and returns
`true`. -/
def setCachedJson (w : World) (key : String) (value : Json)
    (ttlSeconds : Nat) : World × Bool :=
  if w.redisAvailable = false then (w, false)
  else ((Redis_set w key value (some ttlSeconds)).1, true)

/-! ## Express response model -/

inductive ResBody where
  | empty : ResBody
  | bytes (bs : List Nat) : ResBody
  | jsonBody (j : Json) : ResBody

structure Res where
  statusCode : Json
  headers : List (String × JStr)
  resBody : ResBody
  sent : Bool

def Res.init : Res := ⟨Json.num 200, [], ResBody.empty, false⟩

/-- `key.toLowerCase()`, embedded structurally on character data (header
names are ASCII, where JS and Lean lower-casing agree character by
character). -/
def jsToLower (s : String) : String := String.mk (s.data.map Char.toLower)

/-- Node header names compare case-insensitively. -/
def hdrNameEq (a b : String) : Bool := jsToLower a = jsToLower b

/-- `res.setHeader(name, v)`: Node stores at most one entry per
case-insensitive name, so replacing the first match is replacing the
only match. -/
def setHeaderList (hs : List (String × JStr)) (name : String) (v : JStr) :
    List (String × JStr) :=
  match hs with
  | [] => [(name, v)]
  | kv :: rest =>
    if hdrNameEq kv.1 name then (name, v) :: rest
    else kv :: setHeaderList rest name v

def Res.setHeader (r : Res) (name : String) (v : JStr) : Res :=
  { r with headers := setHeaderList r.headers name v }

def getHeader (hs : List (String × JStr)) (name : String) : Option JStr :=
  match hs.find? (fun kv => hdrNameEq kv.1 name) with
  | some kv => some kv.2
  | none => none

def Res.status (r : Res) (s : Json) : Res := { r with statusCode := s }

def Res.send (r : Res) (bs : List Nat) : Res :=
  { r with resBody := ResBody.bytes bs, sent := true }

def Res.endRes (r : Res) : Res :=
  { r with resBody := ResBody.empty, sent := true }

/-- `res.status(500).json({ error, details })`. -/
def Res.json500 (r : Res) (msg : String) : Res :=
  { (r.setHeader "content-type" (JStr.plain "application/json")) with
      statusCode := Json.num 500,
      resBody := ResBody.jsonBody (Json.obj
        [("error", Json.str (JStr.plain "Internal server error")),
         ("details", Json.str (JStr.plain msg))]),
      sent := true }

/-! ## Caching adapter (`server.js` lines 139–212) -/

structure Req where
  method : String
  originalUrl : String
  path : String

/-- A handler's fully materialised Web API response: status, headers (as
iterated from the `Headers` object) and body bytes (`arrayBuffer`). -/
structure WebResponse where
  status : Nat
  headers : List (String × JStr)
  body : List Nat

/-- JS object assignment `obj[k] = v` (case-sensitive key overwrite). -/
def objAssign (fields : List (String × JStr)) (k : String) (v : JStr) :
    List (String × JStr) :=
  if fields.any (fun kv => kv.1 = k) then
    fields.map (fun kv => if kv.1 = k then (k, v) else kv)
  else fields ++ [(k, v)]

/-- Build `responseHeaders`: every handler header except
`transfer-encoding` (lines 174–179). -/
def collectHeaders (hs : List (String × JStr)) : List (String × JStr) :=
  hs.foldl
    (fun acc kv =>
      if jsToLower kv.1 ≠ "transfer-encoding" then objAssign acc kv.1 kv.2
      else acc) []

/-- JS member access `data[name]`: throws (`.error`) on `null`, yields
the property on objects (last binding wins, as `JSON.parse` keeps the
last duplicate key), `undefined` (`none`) on every other value. -/
def getProp : Json → String → Except Unit (Option Json)
  | Json.null, _ => Except.error ()
  | Json.obj fields, name =>
    Except.ok (match fields.reverse.find? (fun kv => kv.1 = name) with
      | some kv => some kv.2
      | none => none)
  | _, _ => Except.ok none

/-- `Buffer.from(s, 'base64')` on a string: inverts base64 output; on any
other string Node decodes leniently without throwing (the result is
modelled as a fixed unspecified byte list). -/
def b64decode : JStr → List Nat
  | JStr.b64 bs => bs
  | JStr.plain _ => []
  | JStr.jsonOf _ => []

/-- JS own-property lookup on a parsed-JSON object (the last duplicate
key wins, as in `JSON.parse`). -/
def objGet (fields : List (String × Json)) (name : String) : Option Json :=
  match fields.reverse.find? (fun kv => kv.1 = name) with
  | some kv => some kv.2
  | none => none

/-- The `ToUint8` coercion `Buffer.from` applies to one array or
array-like entry: numbers are taken modulo 256, booleans through 1/0;
`null`, objects, arrays and non-numeric strings coerce to 0.  (A
numeric *string* entry would coerce to its numeric value in JS; the
string abstraction cannot evaluate that and models such entries as 0 —
no verified property depends on the byte values of a corrupt
envelope.) -/
def jsonToByte : Json → Nat
  | Json.num n => (n % 256).toNat
  | Json.bool b => if b then 1 else 0
  | _ => 0

/-- `Buffer.from(x, 'base64')`, following Node's `fromObject`:
* a string decodes leniently, never throwing;
* an Array builds the buffer from its coerced entries (the encoding
  argument is ignored for non-strings);
* another object with a `length` property is array-like: a non-numeric
  `length` yields an empty buffer, a numeric `length` n the coerced
  entries `x["0"] … x[toString (n - 1)]` (missing entries read as 0,
  a non-positive n gives an empty buffer);
* an object with no `length` property of the Buffer JSON round-trip
  form `{ type: "Buffer", data: [...] }` builds from `data`
  (`Buffer.toString('base64')` output always has length a multiple of
  four and `JSON.stringify` output is valid JSON, so the bare text
  `Buffer` is representable only as `JStr.plain "Buffer"` and the
  `type === 'Buffer'` test is exact in the model);
* everything else — a missing field, `null`, a boolean, a number, or
  any other object — throws a `TypeError` (`none`). -/
def bufferFromB64 : Option Json → Option (List Nat)
  | some (Json.str s) => some (b64decode s)
  | some (Json.arr xs) => some (xs.map jsonToByte)
  | some (Json.obj fields) =>
    match objGet fields "length" with
    | some (Json.num n) =>
      some ((List.range n.toNat).map (fun i =>
        match objGet fields (toString i) with
        | some v => jsonToByte v
        | none => 0))
    | some _ => some []
    | none =>
      match objGet fields "type", objGet fields "data" with
      | some (Json.str (JStr.plain "Buffer")), some (Json.arr xs) =>
        some (xs.map jsonToByte)
      | _, _ => none
  | _ => none

/-- `res.setHeader` accepts strings and numbers and throws a `TypeError`
on other values (arrays of strings, which no envelope written by this
program contains, are not modelled). -/
def headerValue : Json → Option JStr
  | Json.str s => some s
  | Json.num n => some (JStr.plain (toString n))
  | _ => none

/-- `Object.entries` as applied to the envelope's `h` field: an object's
own entries, an array's indexed entries, nothing for other values.  (A
string-valued `h` would enumerate per-character entries in JS; it is
modelled with no entries — the hit/miss outcome depends only on `b`.) -/
def jsEntries : Json → List (String × Json)
  | Json.obj fields => fields
  | Json.arr xs => ((List.range xs.length).zip xs).map (fun p => (toString p.1, p.2))
  | _ => []

/-- The `Object.entries(data.h).forEach(... res.setHeader ...)` loop,
aborting with the partially mutated response when a value throws. -/
def setHeadersFromJson (r : Res) (entries : List (String × Json)) :
    Except Res Res :=
  match entries with
  | [] => Except.ok r
  | (k, v) :: rest =>
    match headerValue v with
    | some hv => setHeadersFromJson (r.setHeader k hv) rest
    | none => Except.error r

/-- The tail of the cache-hit `try` block once the decoded envelope
value `data` is in hand: `res.status(data.s || 200)`, the `data.h`
header loop, the HIT marker, and `res.send(Buffer.from(data.b,
'base64'))`.  The `Bool` reports whether the cached reply was sent;
`false` models a thrown-and-caught error, leaving the partially mutated
response state in place. -/
def sValOf (sProp : Option Json) : Json :=
  match sProp with
  | some v => if jsTruthy v then v else Json.num 200
  | none => Json.num 200

/-- The HIT marker and `res.send(Buffer.from(data.b, 'base64'))` step. -/
def serveB (data : Json) (r2 : Res) : Res × Bool :=
  let r3 := r2.setHeader "x-cache" (JStr.plain "HIT")
  match getProp data "b" with
  | Except.error _ => (r3, false)
  | Except.ok bProp =>
    match bufferFromB64 bProp with
    | none => (r3, false)
    | some bs => (r3.send bs, true)

/-- The `if (data.h) Object.entries(data.h).forEach(...)` step. -/
def serveH (data : Json) (r1 : Res) : Res × Bool :=
  match getProp data "h" with
  | Except.error _ => (r1, false)
  | Except.ok hProp =>
    match (match hProp with
      | some hv =>
        if jsTruthy hv then setHeadersFromJson r1 (jsEntries hv)
        else Except.ok r1
      | none => Except.ok r1) with
    | Except.error rPartial => (rPartial, false)
    | Except.ok r2 => serveB data r2

def serveData (data : Json) (r : Res) : Res × Bool :=
  match getProp data "s" with
  | Except.error _ => (r, false)
  | Except.ok sProp => serveH data (r.status (sValOf sProp))

/-- The cache-hit `try` block (lines 149–162): the re-parse of a cached
string (`typeof cached === 'string' ? JSON.parse(cached) : cached`)
followed by `serveData`. -/
def serveCached (cached : Json) (r : Res) : Res × Bool :=
  match (match cached with | Json.str s => JSON_parse s | c => some c) with
  | none => (r, false)
  | some data => serveData data r

/-- The stored response envelope `{ s, h, b }` (lines 187–191). -/
def envelopeJson (status : Nat) (hs : List (String × JStr))
    (body : List Nat) : Json :=
  Json.obj
    [("s", Json.num (status : Int)),
     ("h", Json.obj (hs.map (fun kv => (kv.1, Json.str kv.2)))),
     ("b", Json.str (JStr.b64 body))]

/-- The `Object.entries(responseHeaders).forEach(([k, v]) =>
res.setHeader(k, v))` loop of the miss emission (line 198). -/
def applyHeaders (r : Res) (L : List (String × JStr)) : Res :=
  L.foldl (fun acc kv => acc.setHeader kv.1 kv.2) r

/-- The cache-check step (lines 145–164): attempt a cached reply only
for a GET on a cacheable route with a live store client and a truthy
cached value; any error inside is caught and treated as a miss. -/
def cacheCheck (routePath : String) (w : World) (req : Req) : Res × Bool :=
  if req.method = "GET" ∧ (!(NO_CACHE.contains routePath)) = true then
    if w.redisAvailable = true then
      let cached := Redis_get w ("apicache:" ++ req.originalUrl)
      if jsTruthy cached = true then serveCached cached Res.init
      else (Res.init, false)
    else (Res.init, false)
  else (Res.init, false)

/-- The per-request closure produced by `adaptEdgeHandler` (lines
139–212).  The Express-to-Web request translation is folded into the
handler parameter; a handler is a function from the request to either a
materialised response or a thrown error message. -/
def adaptEdgeHandler (routePath : String)
    (handler : Req → Except String WebResponse)
    (w : World) (req : Req) : Res × World :=
  let shouldCache := !(NO_CACHE.contains routePath)
  let cacheKey := "apicache:" ++ req.originalUrl
  let checkResult := cacheCheck routePath w req
  if checkResult.2 = true then (checkResult.1, w)
  else
    let r0 := checkResult.1
    match handler req with
    | Except.error msg =>
      if r0.sent = true then (r0, w) else (r0.json500 msg, w)
    | Except.ok wr =>
      let responseHeaders := collectHeaders wr.headers
      let w1 :=
        if req.method = "GET" ∧ shouldCache = true ∧ 200 ≤ wr.status ∧
            wr.status < 300 ∧ 0 < wr.body.length then
          if w.redisAvailable = true then
            (Redis_set w cacheKey
              (Json.str (JSON_stringify
                (envelopeJson wr.status responseHeaders wr.body)))
              (some (getCacheTTL req.path))).1
          else w
        else w
      let r1 := r0.status (Json.num (wr.status : Int))
      let r2 := applyHeaders r1 responseHeaders
      let r3 := r2.setHeader "x-cache" (JStr.plain "MISS")
      let r4 := if 0 < wr.body.length then r3.send wr.body else r3.endRes
      (r4, w1)

/-! ## AIS WebSocket relay (`server.js` lines 267–345)

Event-handler semantics: each WebSocket callback is a state transition
on the relay singleton, emitting a list of I/O effects.  Socket objects
are identified by numeric handles; identity comparison
(`upstreamSocket !== socket`) is handle equality.  A subscriber's
`readyState` is part of its entry in the client set. -/

inductive ReadyState where
  | connecting : ReadyState
  | opened : ReadyState
  | closing : ReadyState
  | closed : ReadyState
deriving DecidableEq

structure Client where
  id : Nat
  ready : ReadyState
deriving DecidableEq

structure RelayState where
  upstream : Option Nat
  upstreamReady : ReadyState
  clients : List Client
  messageCount : Nat

inductive Effect where
  | sendTo (client : Nat) (msg : String) : Effect
  | closeSocket (sock : Nat) : Effect
  | scheduleReconnect (delayMs : Nat) : Effect
  | openSocket (sock : Nat) : Effect
  | sendSubscription (sock : Nat) : Effect
deriving DecidableEq

/-- `connectUpstream` (lines 281–287 and 324): a no-op while the current
upstream handle is OPEN or CONNECTING, otherwise adopts a fresh handle
as the current connection. -/
def connectUpstream (s : RelayState) (sock : Nat) : RelayState × List Effect :=
  if s.upstream.isSome = true ∧
      (s.upstreamReady = ReadyState.opened ∨
       s.upstreamReady = ReadyState.connecting) then
    (s, [])
  else
    ({ s with upstream := some sock, upstreamReady := ReadyState.connecting },
     [Effect.openSocket sock])

inductive REvent where
  | upstreamOpen (sock : Nat) : REvent
  | upstreamMessage (sock : Nat) (data : String) : REvent
  | upstreamClose (sock : Nat) : REvent
  | upstreamError (sock : Nat) : REvent
  | clientConnect (c : Client) (freshSock : Nat) : REvent
  | clientClose (id : Nat) : REvent
  | reconnectTimer (freshSock : Nat) : REvent

/-- One relay event (lines 289–333).  Subscriber handles are distinct
objects in JS, so `clients.add` appends and `clients.delete` removes by
handle. -/
def relayStep (s : RelayState) (e : REvent) : RelayState × List Effect :=
  match e with
  | REvent.upstreamOpen sock =>
    if s.upstream = some sock then
      ({ s with upstreamReady := ReadyState.opened },
       [Effect.sendSubscription sock])
    else (s, [Effect.closeSocket sock])
  | REvent.upstreamMessage sock data =>
    if s.upstream = some sock then
      ({ s with messageCount := s.messageCount + 1 },
       (s.clients.filter (fun c => c.ready = ReadyState.opened)).map
         (fun c => Effect.sendTo c.id data))
    else (s, [])
  | REvent.upstreamClose sock =>
    if s.upstream = some sock then
      ({ s with upstream := none, upstreamReady := ReadyState.closed },
       [Effect.scheduleReconnect 5000])
    else (s, [])
  | REvent.upstreamError _ => (s, [])
  | REvent.clientConnect c freshSock =>
    connectUpstream { s with clients := s.clients ++ [c] } freshSock
  | REvent.clientClose id =>
    ({ s with clients := s.clients.filter (fun c => c.id ≠ id) }, [])
  | REvent.reconnectTimer freshSock => connectUpstream s freshSock

def relayRun (s : RelayState) (es : List REvent) : RelayState × List Effect :=
  match es with
  | [] => (s, [])
  | e :: rest =>
    let step := relayStep s e
    let rest2 := relayRun step.1 rest
    (rest2.1, step.2 ++ rest2.2)

/-- The messages delivered to subscriber `id`, in emission order. -/
def deliveredTo (id : Nat) (effs : List Effect) : List String :=
  effs.filterMap (fun e =>
    match e with
    | Effect.sendTo i m => if i = id then some m else none
    | _ => none)

/-! ## C6 — `Redis.get` error handling -/

/-- C6: `Redis.get` — a total function, so no exception ever escapes —
returns the parsed structure when the stored string parses as JSON, the
raw string when it does not, and the null sentinel when no connection
exists, the key is missing, or the transport operation fails. -/
theorem redis_get_never_throws (w : World) (key : String) :
    (w.redisAvailable = false → Redis_get w key = Json.null) ∧
    (w.getFails = true → Redis_get w key = Json.null) ∧
    (cacheLookup w.cache w.now key = none → Redis_get w key = Json.null) ∧
    (∀ raw j, w.redisAvailable = true → w.getFails = false →
      cacheLookup w.cache w.now key = some raw → JSON_parse raw = some j →
      Redis_get w key = j) ∧
    (∀ raw, w.redisAvailable = true → w.getFails = false →
      cacheLookup w.cache w.now key = some raw → JSON_parse raw = none →
      Redis_get w key = Json.str raw) := by
  refine ⟨fun h => by simp [Redis_get, h], fun h => by simp [Redis_get, h],
    fun h => ?_, fun raw j h1 h2 h3 h4 => by simp [Redis_get, h1, h2, h3, h4],
    fun raw h1 h2 h3 h4 => by simp [Redis_get, h1, h2, h3, h4]⟩
  by_cases h1 : w.redisAvailable = false
  · simp [Redis_get, h1]
  · by_cases h2 : w.getFails = true <;> simp [Redis_get, h1, h2, h]

theorem redis_get_never_throws_witness :
    Redis_get ⟨false, false, false, 0, []⟩ "k" = Json.null :=
  (redis_get_never_throws ⟨false, false, false, 0, []⟩ "k").1 rfl

/-! ## C7 — `Redis.mget` alignment -/

/-- C7 (code defect): with no store connection `mget` maps the sentinel
over the raw argument list instead of the flattened keys, so the single
array argument `[["a", "b"]]` yields one sentinel where the flattened
input has two keys — unlike the connected branch, which is aligned to
the flattened input. -/
theorem mget_noclient_misaligned :
    (Redis_mget ⟨false, false, false, 0, []⟩ [Sum.inr ["a", "b"]]).length = 1 ∧
    (jsFlat [Sum.inr ["a", "b"]]).length = 2 ∧
    (Redis_mget ⟨true, false, false, 0, []⟩ [Sum.inr ["a", "b"]]).length = 2 ∧
    (Redis_mget ⟨true, true, false, 0, []⟩ [Sum.inr ["a", "b"]]).length = 2 :=
  ⟨rfl, rfl, rfl, rfl⟩

/-! ## C10 — `setCachedJson` success indicator -/

/-- C10: `setCachedJson` returns `true` whenever a store client exists —
even when the transport write fails, in which case the store is left
unchanged — and returns `false` only when no client is available; a
`true` result therefore does not imply the value was stored. -/
theorem setCachedJson_true_despite_write_failure (w : World) (key : String)
    (value : Json) (ttl : Nat) :
    (w.redisAvailable = true → (setCachedJson w key value ttl).2 = true) ∧
    (w.redisAvailable = false → (setCachedJson w key value ttl).2 = false) ∧
    (w.redisAvailable = true → w.setFails = true →
      (setCachedJson w key value ttl).1 = w) := by
  refine ⟨fun h => by simp [setCachedJson, h], fun h => by simp [setCachedJson, h],
    fun h1 h2 => by simp [setCachedJson, Redis_set, h1, h2]⟩

theorem setCachedJson_true_despite_write_failure_witness :
    (setCachedJson ⟨true, false, true, 0, []⟩ "k" Json.null 60).2 = true ∧
    (setCachedJson ⟨true, false, true, 0, []⟩ "k" Json.null 60).1 =
      ⟨true, false, true, 0, []⟩ :=
  ⟨(setCachedJson_true_despite_write_failure ⟨true, false, true, 0, []⟩ "k"
      Json.null 60).1 rfl,
   (setCachedJson_true_despite_write_failure ⟨true, false, true, 0, []⟩ "k"
      Json.null 60).2.2 rfl rfl⟩

/-! ### Relay broadcast lemmas -/

theorem deliveredTo_append (id : Nat) (a b : List Effect) :
    deliveredTo id (a ++ b) = deliveredTo id a ++ deliveredTo id b := by
  simp [deliveredTo]

theorem deliveredTo_sendTo_cons (id i : Nat) (m : String) (es : List Effect) :
    deliveredTo id (Effect.sendTo i m :: es) =
      if i = id then m :: deliveredTo id es else deliveredTo id es := by
  by_cases h : i = id <;> simp [deliveredTo, List.filterMap_cons, h]

theorem broadcast_skips_absent (data : String) :
    ∀ (clients : List Client) (id : Nat), id ∉ clients.map Client.id →
    deliveredTo id ((clients.filter (fun x => x.ready = ReadyState.opened)).map
      (fun x => Effect.sendTo x.id data)) = [] := by
  intro clients
  induction clients with
  | nil => intro id _; rfl
  | cons c0 rest ih =>
    intro id h
    simp only [List.map_cons, List.mem_cons, not_or] at h
    by_cases h0 : c0.ready = ReadyState.opened
    · rw [List.filter_cons_of_pos (by simp [h0]), List.map_cons,
        deliveredTo_sendTo_cons, if_neg (fun he => h.1 he.symm)]
      exact ih id h.2
    · rw [List.filter_cons_of_neg (by simp [h0])]
      exact ih id h.2

theorem broadcast_delivers (data : String) :
    ∀ (clients : List Client) (c : Client),
    (clients.map Client.id).Nodup → c ∈ clients →
    c.ready = ReadyState.opened →
    deliveredTo c.id ((clients.filter (fun x => x.ready = ReadyState.opened)).map
      (fun x => Effect.sendTo x.id data)) = [data] := by
  intro clients
  induction clients with
  | nil => intro c _ hc; simp at hc
  | cons c0 rest ih =>
    intro c hnd hc hr
    simp only [List.map_cons, List.nodup_cons] at hnd
    rcases List.mem_cons.mp hc with heq | hmem
    · subst heq
      rw [List.filter_cons_of_pos (by simp [hr]), List.map_cons,
        deliveredTo_sendTo_cons, if_pos rfl]
      rw [broadcast_skips_absent data rest c.id hnd.1]
    · have hne : c.id ≠ c0.id := by
        intro he
        exact hnd.1 (he ▸ List.mem_map_of_mem Client.id hmem)
      by_cases h0 : c0.ready = ReadyState.opened
      · rw [List.filter_cons_of_pos (by simp [h0]), List.map_cons,
          deliveredTo_sendTo_cons, if_neg (fun he => hne he.symm)]
        exact ih c hnd.2 hmem hr
      · rw [List.filter_cons_of_neg (by simp [h0])]
        exact ih c hnd.2 hmem hr

theorem broadcast_skips_non_open (data : String) :
    ∀ (clients : List Client) (c : Client),
    (clients.map Client.id).Nodup → c ∈ clients →
    c.ready ≠ ReadyState.opened →
    deliveredTo c.id ((clients.filter (fun x => x.ready = ReadyState.opened)).map
      (fun x => Effect.sendTo x.id data)) = [] := by
  intro clients
  induction clients with
  | nil => intro c _ hc; simp at hc
  | cons c0 rest ih =>
    intro c hnd hc hr
    simp only [List.map_cons, List.nodup_cons] at hnd
    rcases List.mem_cons.mp hc with heq | hmem
    · subst heq
      rw [List.filter_cons_of_neg (by simp [hr])]
      exact broadcast_skips_absent data rest c.id hnd.1
    · have hne : c.id ≠ c0.id := by
        intro he
        exact hnd.1 (he ▸ List.mem_map_of_mem Client.id hmem)
      by_cases h0 : c0.ready = ReadyState.opened
      · rw [List.filter_cons_of_pos (by simp [h0]), List.map_cons,
          deliveredTo_sendTo_cons, if_neg (fun he => hne he.symm)]
        exact ih c hnd.2 hmem hr
      · rw [List.filter_cons_of_neg (by simp [h0])]
        exact ih c hnd.2 hmem hr

theorem relayStep_message_current (s : RelayState) (u : Nat) (data : String)
    (hu : s.upstream = some u) :
    relayStep s (REvent.upstreamMessage u data) =
      ({ s with messageCount := s.messageCount + 1 },
       (s.clients.filter (fun c => c.ready = ReadyState.opened)).map
         (fun c => Effect.sendTo c.id data)) := by
  simp [relayStep, hu]

theorem run_messages_delivers (u : Nat) (msgs : List String) :
    ∀ (s : RelayState), s.upstream = some u →
    (s.clients.map Client.id).Nodup →
    ∀ c ∈ s.clients, c.ready = ReadyState.opened →
    deliveredTo c.id
      (relayRun s (msgs.map (fun m => REvent.upstreamMessage u m))).2 = msgs := by
  induction msgs with
  | nil => intro s _ _ c _ _; rfl
  | cons m rest ih =>
    intro s hu hnd c hc hr
    simp only [List.map_cons, relayRun]
    rw [relayStep_message_current s u m hu]
    rw [deliveredTo_append]
    rw [broadcast_delivers m s.clients c hnd hc hr]
    rw [ih { s with messageCount := s.messageCount + 1 } hu hnd c hc hr]
    rfl

theorem run_messages_absent (u : Nat) (msgs : List String) :
    ∀ (s : RelayState), s.upstream = some u →
    ∀ id, id ∉ s.clients.map Client.id →
    deliveredTo id
      (relayRun s (msgs.map (fun m => REvent.upstreamMessage u m))).2 = [] := by
  induction msgs with
  | nil => intro s _ id _; rfl
  | cons m rest ih =>
    intro s hu id h
    simp only [List.map_cons, relayRun]
    rw [relayStep_message_current s u m hu]
    rw [deliveredTo_append]
    rw [broadcast_skips_absent m s.clients id h]
    rw [ih { s with messageCount := s.messageCount + 1 } hu id h]
    rfl

/-! ## C4 — relay message fan-out -/

/-- C4: a message from the current upstream connection is forwarded
verbatim to exactly the subscribers whose sockets are OPEN, in arrival
order across a message sequence; a subscriber removed on close receives
no further messages, and its absence — or a non-OPEN socket — leaves
delivery to the remaining subscribers untouched.  (Every transition is a
total function, so no delivery failure is possible.) -/
theorem relay_message_fanout (s : RelayState) (u : Nat)
    (hu : s.upstream = some u)
    (hnd : (s.clients.map Client.id).Nodup) :
    (∀ data,
      (relayStep s (REvent.upstreamMessage u data)).2 =
        (s.clients.filter (fun c => c.ready = ReadyState.opened)).map
          (fun c => Effect.sendTo c.id data) ∧
      (relayStep s (REvent.upstreamMessage u data)).1 =
        { s with messageCount := s.messageCount + 1 }) ∧
    (∀ msgs : List String, ∀ c ∈ s.clients, c.ready = ReadyState.opened →
      deliveredTo c.id
        (relayRun s (msgs.map (fun m => REvent.upstreamMessage u m))).2 = msgs) ∧
    (∀ data, ∀ c ∈ s.clients, c.ready ≠ ReadyState.opened →
      deliveredTo c.id (relayStep s (REvent.upstreamMessage u data)).2 = []) ∧
    (∀ msgs : List String, ∀ id,
      deliveredTo id
        (relayRun s (REvent.clientClose id ::
          msgs.map (fun m => REvent.upstreamMessage u m))).2 = []) ∧
    (∀ msgs : List String, ∀ id, ∀ c ∈ s.clients, c.id ≠ id →
      c.ready = ReadyState.opened →
      deliveredTo c.id
        (relayRun s (REvent.clientClose id ::
          msgs.map (fun m => REvent.upstreamMessage u m))).2 = msgs) := by
  have hstepclose : ∀ id, relayStep s (REvent.clientClose id) =
      ({ s with clients := s.clients.filter (fun c => c.id ≠ id) }, []) := by
    intro id; rfl
  have hndf : ∀ id,
      ((s.clients.filter (fun c => c.id ≠ id)).map Client.id).Nodup := by
    intro id
    exact List.Nodup.sublist (List.Sublist.map Client.id (List.filter_sublist _)) hnd
  refine ⟨fun data => ⟨by rw [relayStep_message_current s u data hu],
      by rw [relayStep_message_current s u data hu]⟩,
    fun msgs c hc hr => run_messages_delivers u msgs s hu hnd c hc hr,
    fun data c hc hr => ?_, fun msgs id => ?_, fun msgs id c hc hne hr => ?_⟩
  · rw [relayStep_message_current s u data hu]
    exact broadcast_skips_non_open data s.clients c hnd hc hr
  · simp only [relayRun, hstepclose id]
    rw [List.nil_append]
    refine run_messages_absent u msgs
      { s with clients := s.clients.filter (fun c => c.id ≠ id) } hu id ?_
    intro hmem
    rcases List.mem_map.mp hmem with ⟨c, hcf, hcid⟩
    rcases List.mem_filter.mp hcf with ⟨_, hne⟩
    simp at hne
    exact hne hcid
  · simp only [relayRun, hstepclose id]
    rw [List.nil_append]
    refine run_messages_delivers u msgs
      { s with clients := s.clients.filter (fun c => c.id ≠ id) } hu
      (hndf id) c ?_ hr
    exact List.mem_filter.mpr ⟨hc, by simpa using hne⟩

theorem relay_message_fanout_witness :
    deliveredTo 1
      (relayRun ⟨some 7, ReadyState.opened,
          [⟨1, ReadyState.opened⟩, ⟨2, ReadyState.closing⟩], 0⟩
        (["a", "b"].map (fun m => REvent.upstreamMessage 7 m))).2 = ["a", "b"] ∧
    deliveredTo 2
      (relayStep ⟨some 7, ReadyState.opened,
          [⟨1, ReadyState.opened⟩, ⟨2, ReadyState.closing⟩], 0⟩
        (REvent.upstreamMessage 7 "a")).2 = [] :=
  ⟨(relay_message_fanout _ 7 rfl (by decide)).2.1 ["a", "b"]
      ⟨1, ReadyState.opened⟩ (by decide) rfl,
   (relay_message_fanout _ 7 rfl (by decide)).2.2.1 "a"
      ⟨2, ReadyState.closing⟩ (by decide) (by decide)⟩

/-! ## C5 — relay reconnection and stale handles -/

/-- C5: closing the current upstream connection schedules exactly one
reconnect attempt with the fixed 5000 ms delay (and clears the current
handle, so the fired timer adopts a fresh handle); a superseded handle
never becomes the active connection — its late open, message and close
events are discarded by identity comparison, the late open merely
closing the stale socket. -/
theorem relay_reconnect_once (s : RelayState) (u : Nat)
    (hu : s.upstream = some u) :
    ((relayStep s (REvent.upstreamClose u)).2 =
        [Effect.scheduleReconnect 5000] ∧
      (relayStep s (REvent.upstreamClose u)).1.upstream = none) ∧
    (∀ fresh,
      (relayStep (relayStep s (REvent.upstreamClose u)).1
        (REvent.reconnectTimer fresh)).1.upstream = some fresh) ∧
    (∀ stale, s.upstream ≠ some stale →
      (relayStep s (REvent.upstreamOpen stale)).1 = s ∧
      (relayStep s (REvent.upstreamOpen stale)).2 =
        [Effect.closeSocket stale] ∧
      (∀ data, relayStep s (REvent.upstreamMessage stale data) = (s, [])) ∧
      relayStep s (REvent.upstreamClose stale) = (s, [])) := by
  refine ⟨⟨by simp [relayStep, hu], by simp [relayStep, hu]⟩,
    fun fresh => ?_, fun stale hne => ?_⟩
  · simp [relayStep, hu, connectUpstream]
  · rw [hu] at hne
    have hne2 : ¬ (s.upstream = some stale) := by rw [hu]; exact hne
    exact ⟨by simp [relayStep, hne2], by simp [relayStep, hne2],
      fun data => by simp [relayStep, hne2], by simp [relayStep, hne2]⟩

theorem relay_reconnect_once_witness :
    (relayStep ⟨some 7, ReadyState.opened, [], 5⟩ (REvent.upstreamClose 7)).2 =
      [Effect.scheduleReconnect 5000] ∧
    (relayStep ⟨some 7, ReadyState.opened, [], 5⟩
      (REvent.upstreamMessage 3 "x")) = (⟨some 7, ReadyState.opened, [], 5⟩, []) :=
  ⟨(relay_reconnect_once ⟨some 7, ReadyState.opened, [], 5⟩ 7 rfl).1.1,
   ((relay_reconnect_once ⟨some 7, ReadyState.opened, [], 5⟩ 7 rfl).2.2 3
      (by decide)).2.2.1 "x"⟩

/-! ### Response-state lemmas -/

theorem getHeader_cons (kv : String × JStr) (rest : List (String × JStr))
    (m : String) :
    getHeader (kv :: rest) m =
      if hdrNameEq kv.1 m then some kv.2 else getHeader rest m := by
  by_cases h : hdrNameEq kv.1 m = true <;>
    simp [getHeader, List.find?_cons, h]

theorem hdrNameEq_trans {a b c : String} (h1 : hdrNameEq a b = true)
    (h2 : hdrNameEq b c = true) : hdrNameEq a c = true := by
  simp only [hdrNameEq, decide_eq_true_eq] at h1 h2 ⊢
  exact h1.trans h2

theorem hdrNameEq_symm {a b : String} (h : hdrNameEq a b = true) :
    hdrNameEq b a = true := by
  simp only [hdrNameEq, decide_eq_true_eq] at h ⊢
  exact h.symm

theorem getHeader_setHeaderList (hs : List (String × JStr)) (name : String)
    (v : JStr) (m : String) :
    getHeader (setHeaderList hs name v) m =
      if hdrNameEq name m then some v else getHeader hs m := by
  induction hs with
  | nil =>
    simp only [setHeaderList]
    rw [getHeader_cons]
  | cons kv rest ih =>
    by_cases h1 : hdrNameEq kv.1 name = true
    · rw [setHeaderList, if_pos h1, getHeader_cons, getHeader_cons]
      by_cases h2 : hdrNameEq name m = true
      · rw [if_pos h2, if_pos h2]
      · have h3 : hdrNameEq kv.1 m = false :=
          Bool.eq_false_iff.mpr (fun hc => h2 (hdrNameEq_trans (hdrNameEq_symm h1) hc))
        rw [if_neg h2, if_neg h2, if_neg (by simp [h3])]
    · rw [setHeaderList, if_neg h1, getHeader_cons, getHeader_cons, ih]
      by_cases h3 : hdrNameEq kv.1 m = true
      · have h4 : hdrNameEq name m = false :=
          Bool.eq_false_iff.mpr (fun hc => h1 (hdrNameEq_trans h3 (hdrNameEq_symm hc)))
        rw [if_pos h3, if_neg (by simp [h4]), if_pos h3]
      · rw [if_neg h3, if_neg h3]


theorem setHeaderList_eq_or_mem (hs : List (String × JStr)) (name : String)
    (v : JStr) :
    ∀ kv ∈ setHeaderList hs name v, kv = (name, v) ∨ kv ∈ hs := by
  induction hs with
  | nil => intro kv h; simp [setHeaderList] at h; exact Or.inl h
  | cons kv0 rest ih =>
    intro kv h
    by_cases h1 : hdrNameEq kv0.1 name = true
    · simp only [setHeaderList, if_pos h1, List.mem_cons] at h
      rcases h with h | h
      · exact Or.inl h
      · exact Or.inr (List.mem_cons_of_mem _ h)
    · simp only [setHeaderList, if_neg h1, List.mem_cons] at h
      rcases h with h | h
      · exact Or.inr (by simp [h])
      · rcases ih kv h with h2 | h2
        · exact Or.inl h2
        · exact Or.inr (List.mem_cons_of_mem _ h2)

theorem Res_setHeader_statusCode (r : Res) (n : String) (v : JStr) :
    (r.setHeader n v).statusCode = r.statusCode := rfl

theorem Res_setHeader_sent (r : Res) (n : String) (v : JStr) :
    (r.setHeader n v).sent = r.sent := rfl

theorem applyHeaders_statusCode : ∀ (L : List (String × JStr)) (r : Res),
    (applyHeaders r L).statusCode = r.statusCode := by
  intro L
  induction L with
  | nil => intro r; rfl
  | cons kv rest ih => intro r; exact ih (r.setHeader kv.1 kv.2)

theorem applyHeaders_sent : ∀ (L : List (String × JStr)) (r : Res),
    (applyHeaders r L).sent = r.sent := by
  intro L
  induction L with
  | nil => intro r; rfl
  | cons kv rest ih => intro r; exact ih (r.setHeader kv.1 kv.2)

theorem applyHeaders_resBody : ∀ (L : List (String × JStr)) (r : Res),
    (applyHeaders r L).resBody = r.resBody := by
  intro L
  induction L with
  | nil => intro r; rfl
  | cons kv rest ih => intro r; exact ih (r.setHeader kv.1 kv.2)

theorem applyHeaders_headers : ∀ (L : List (String × JStr)) (r1 r2 : Res),
    r1.headers = r2.headers →
    (applyHeaders r1 L).headers = (applyHeaders r2 L).headers := by
  intro L
  induction L with
  | nil => intro r1 r2 h; exact h
  | cons kv rest ih =>
    intro r1 r2 h
    refine ih (r1.setHeader kv.1 kv.2) (r2.setHeader kv.1 kv.2) ?_
    simp [Res.setHeader, h]

/-- `setHeadersFromJson` over string-valued entries is the plain header
fold. -/
theorem setHeadersFromJson_strings :
    ∀ (L : List (String × JStr)) (r : Res),
    setHeadersFromJson r (L.map (fun kv => (kv.1, Json.str kv.2))) =
      Except.ok (applyHeaders r L) := by
  intro L
  induction L with
  | nil => intro r; rfl
  | cons kv rest ih =>
    intro r
    simp only [List.map_cons, setHeadersFromJson, headerValue]
    exact ih (r.setHeader kv.1 kv.2)

theorem setHeadersFromJson_sent : ∀ (entries : List (String × Json)) (r : Res),
    (match setHeadersFromJson r entries with
     | Except.ok r2 => r2.sent
     | Except.error r2 => r2.sent) = r.sent := by
  intro entries
  induction entries with
  | nil => intro r; rfl
  | cons kv rest ih =>
    intro r
    rcases hv : headerValue kv.2 with _ | h
    · simp [setHeadersFromJson, hv]
    · simpa [setHeadersFromJson, hv] using ih (r.setHeader kv.1 h)

/-! ### Hit-path failure lemmas -/

/-- Can the code reach `res.send` for this envelope value?  Mirrors the
only throwing step after the headers: `Buffer.from(data.b, 'base64')`,
which succeeds on strings, Arrays, array-like objects and the Buffer
JSON form, and throws on a missing field, `null`, a boolean, a number,
or any other object. -/
def bodyDecodable (d : Json) : Bool :=
  match getProp d "b" with
  | Except.ok bProp =>
    match bufferFromB64 bProp with
    | some _ => true
    | none => false
  | Except.error _ => false

/-- The value the adapter ends up decoding: `Redis.get`'s automatic
JSON parse composed with the hit path's re-parse of string values. -/
def effectiveData (raw : JStr) : Option Json :=
  match JSON_parse raw with
  | none => none
  | some (Json.str s) => JSON_parse s
  | some j => some j

/-- C8's premise, stated on the stored string: the stored value does not
decode to a servable envelope — either no JSON document survives the
parse chain, or the envelope's `b` field makes `Buffer.from` throw. -/
def decodeFails (raw : JStr) : Prop :=
  match effectiveData raw with
  | none => True
  | some d => bodyDecodable d = false

theorem serveB_sent (data : Json) (r2 : Res) :
    (serveB data r2).2 = false → (serveB data r2).1.sent = r2.sent := by
  unfold serveB
  rcases hb : getProp data "b" with _ | bProp
  · intro _; rfl
  · rcases hbf : bufferFromB64 bProp with _ | bs
    · simp only [hbf]
      intro _; rfl
    · simp only [hbf]
      intro h; simp at h

theorem serveB_fails (data : Json) (r2 : Res)
    (h : bodyDecodable data = false) : (serveB data r2).2 = false := by
  unfold serveB
  unfold bodyDecodable at h
  rcases hb : getProp data "b" with _ | bProp
  · rfl
  · rw [hb] at h
    replace h : (match bufferFromB64 bProp with
      | some _ => true
      | none => false) = false := h
    rcases hbf : bufferFromB64 bProp with _ | bs
    · simp only [hbf]
    · rw [hbf] at h
      simp at h

theorem serveH_sent (data : Json) (r1 : Res) :
    (serveH data r1).2 = false → (serveH data r1).1.sent = r1.sent := by
  unfold serveH
  rcases hh : getProp data "h" with _ | hProp
  · intro _; rfl
  · have hsent : ∀ (st : Except Res Res) (r0 : Res),
        (match setHeadersFromJson r0 (jsEntries (Json.null)) with
          | Except.ok r2 => r2.sent
          | Except.error r2 => r2.sent) = r0.sent := fun _ r0 =>
      setHeadersFromJson_sent (jsEntries Json.null) r0
    rcases hProp with _ | hv
    · exact fun h => serveB_sent data r1 h
    · by_cases htr : jsTruthy hv = true
      · simp only [htr, if_true]
        have hs := setHeadersFromJson_sent (jsEntries hv) r1
        rcases hstep : setHeadersFromJson r1 (jsEntries hv) with r2 | r2
        · rw [hstep] at hs
          intro _
          exact hs
        · rw [hstep] at hs
          intro h
          rw [serveB_sent data r2 h]
          exact hs
      · simp only [htr]
        intro h
        simp only [Bool.false_eq_true, if_false]
        exact serveB_sent data r1 h

theorem serveH_fails (data : Json) (r1 : Res)
    (h : bodyDecodable data = false) : (serveH data r1).2 = false := by
  unfold serveH
  rcases hh : getProp data "h" with _ | hProp
  · rfl
  · rcases hProp with _ | hv
    · exact serveB_fails data r1 h
    · by_cases htr : jsTruthy hv = true
      · simp only [htr, if_true]
        rcases hstep : setHeadersFromJson r1 (jsEntries hv) with r2 | r2
        · rfl
        · exact serveB_fails data r2 h
      · simp only [htr, Bool.false_eq_true, if_false]
        exact serveB_fails data r1 h

theorem serveData_sent (data : Json) (r : Res) :
    (serveData data r).2 = false → (serveData data r).1.sent = r.sent := by
  unfold serveData
  rcases hs : getProp data "s" with _ | sProp
  · intro _; rfl
  · intro h
    exact serveH_sent data (r.status (sValOf sProp)) h

theorem serveData_fails (data : Json) (r : Res)
    (h : bodyDecodable data = false) : (serveData data r).2 = false := by
  unfold serveData
  rcases hs : getProp data "s" with _ | sProp
  · rfl
  · exact serveH_fails data (r.status (sValOf sProp)) h

theorem serveCached_sent (cached : Json) (r : Res) :
    (serveCached cached r).2 = false → (serveCached cached r).1.sent = r.sent := by
  cases cached with
  | str s =>
    show ((match JSON_parse s with
      | none => (r, false)
      | some data => serveData data r).2 = false) →
      ((match JSON_parse s with
        | none => (r, false)
        | some data => serveData data r).1.sent = r.sent)
    cases hps : JSON_parse s with
    | none => intro _; rfl
    | some data => exact serveData_sent data r
  | null => exact serveData_sent Json.null r
  | bool b => exact serveData_sent (Json.bool b) r
  | num n => exact serveData_sent (Json.num n) r
  | arr xs => exact serveData_sent (Json.arr xs) r
  | obj fs => exact serveData_sent (Json.obj fs) r

/-- Decode failure of the stored string forces the hit attempt to fail,
whatever partial response state it leaves behind.  The second premise
states how `Redis.get` produced the hit value from the stored string. -/
theorem serveCached_fails_of_decodeFails (raw : JStr) (r : Res)
    (hdf : decodeFails raw) :
    ∀ cached, (JSON_parse raw = some cached ∨
        (JSON_parse raw = none ∧ cached = Json.str raw)) →
      (serveCached cached r).2 = false := by
  intro cached hcase
  rcases hcase with hp | ⟨hp, hc⟩
  · unfold decodeFails effectiveData at hdf
    rw [hp] at hdf
    cases cached with
    | str s =>
      replace hdf : (match JSON_parse s with
        | none => True
        | some d => bodyDecodable d = false) := hdf
      show (match JSON_parse s with
        | none => (r, false)
        | some data => serveData data r).2 = false
      cases hps : JSON_parse s with
      | none => rfl
      | some d =>
        rw [hps] at hdf
        exact serveData_fails d r hdf
    | null => exact serveData_fails Json.null r hdf
    | bool b => exact serveData_fails (Json.bool b) r hdf
    | num n => exact serveData_fails (Json.num n) r hdf
    | arr xs => exact serveData_fails (Json.arr xs) r hdf
    | obj fs => exact serveData_fails (Json.obj fs) r hdf
  · subst hc
    show (match JSON_parse raw with
      | none => (r, false)
      | some data => serveData data r).2 = false
    rw [hp]

theorem cacheCheck_not_sent (routePath : String) (w : World) (req : Req)
    (h : (cacheCheck routePath w req).2 = false) :
    (cacheCheck routePath w req).1.sent = false := by
  unfold cacheCheck at h ⊢
  by_cases h1 : req.method = "GET" ∧ (!(NO_CACHE.contains routePath)) = true
  · rw [if_pos h1] at h ⊢
    by_cases h2 : w.redisAvailable = true
    · rw [if_pos h2] at h ⊢
      by_cases h3 : jsTruthy (Redis_get w ("apicache:" ++ req.originalUrl)) = true
      · rw [if_pos h3] at h ⊢
        exact serveCached_sent _ Res.init h
      · rw [if_neg h3] at h ⊢; rfl
    · rw [if_neg h2] at h ⊢; rfl
  · rw [if_neg h1] at h ⊢; rfl

/-! ## C9 — handler failures become a 500 reply -/

/-- C9: when the cache does not serve the request and the downstream
handler throws, the adapter catches the exception (the adapter is a
total function, so nothing propagates), leaves the cache untouched, and
replies 500 with the generic error object carrying the diagnostic
message — the caller is always sent a reply. -/
theorem adapter_handler_error_500 (routePath : String)
    (handler : Req → Except String WebResponse) (w : World) (req : Req)
    (msg : String)
    (hns : (cacheCheck routePath w req).2 = false)
    (herr : handler req = Except.error msg) :
    adaptEdgeHandler routePath handler w req =
      ((cacheCheck routePath w req).1.json500 msg, w) ∧
    (adaptEdgeHandler routePath handler w req).1.statusCode = Json.num 500 ∧
    (adaptEdgeHandler routePath handler w req).1.resBody =
      ResBody.jsonBody (Json.obj
        [("error", Json.str (JStr.plain "Internal server error")),
         ("details", Json.str (JStr.plain msg))]) ∧
    (adaptEdgeHandler routePath handler w req).1.sent = true ∧
    (adaptEdgeHandler routePath handler w req).2 = w := by
  have hmain : adaptEdgeHandler routePath handler w req =
      ((cacheCheck routePath w req).1.json500 msg, w) := by
    simp only [adaptEdgeHandler, hns, Bool.false_eq_true, if_false, herr,
      cacheCheck_not_sent routePath w req hns]
  refine ⟨hmain, ?_, ?_, ?_, ?_⟩ <;> rw [hmain] <;> rfl

theorem adapter_handler_error_500_witness :
    adaptEdgeHandler "/api/earthquakes" (fun _ => Except.error "boom")
      ⟨false, false, false, 0, []⟩
      ⟨"GET", "/api/earthquakes", "/api/earthquakes"⟩ =
      ((cacheCheck "/api/earthquakes" ⟨false, false, false, 0, []⟩
          ⟨"GET", "/api/earthquakes", "/api/earthquakes"⟩).1.json500 "boom",
       ⟨false, false, false, 0, []⟩) :=
  (adapter_handler_error_500 "/api/earthquakes" (fun _ => Except.error "boom")
    ⟨false, false, false, 0, []⟩
    ⟨"GET", "/api/earthquakes", "/api/earthquakes"⟩ "boom" rfl rfl).1

theorem find?_append_single {α : Type} (l : List α) (a : α) (p : α → Bool) :
    (l ++ [a]).find? p =
      match l.find? p with
      | some x => some x
      | none => if p a then some a else none := by
  induction l with
  | nil => by_cases h : p a = true <;> simp [List.find?, h]
  | cons x rest ih =>
    by_cases h : p x = true
    · simp [List.find?_cons, h]
    · simp only [List.cons_append, List.find?_cons, Bool.not_eq_true] at *
      simp [h, ih]

theorem getHeader_applyHeaders : ∀ (L : List (String × JStr)) (r : Res)
    (m : String),
    getHeader (applyHeaders r L).headers m =
      match L.reverse.find? (fun kv => hdrNameEq kv.1 m) with
      | some kv => some kv.2
      | none => getHeader r.headers m := by
  intro L
  induction L with
  | nil => intro r m; rfl
  | cons kv rest ih =>
    intro r m
    have hstep : applyHeaders r (kv :: rest) =
        applyHeaders (r.setHeader kv.1 kv.2) rest := rfl
    rw [hstep, ih (r.setHeader kv.1 kv.2) m]
    have hrev : (kv :: rest).reverse = rest.reverse ++ [kv] := by simp
    rw [hrev, find?_append_single]
    rcases hf : rest.reverse.find? (fun e => hdrNameEq e.1 m) with _ | kv2
    · rw [hf]
      show getHeader (setHeaderList r.headers kv.1 kv.2) m =
        match (if hdrNameEq kv.1 m then some kv else none) with
        | some x => some x.2
        | none => getHeader r.headers m
      rw [getHeader_setHeaderList]
      by_cases h : hdrNameEq kv.1 m = true
      · rw [if_pos h, if_pos h]
      · rw [if_neg h, if_neg h]
    · rw [hf]

theorem cacheCheck_decodeFails (routePath : String) (w : World) (req : Req)
    (raw : JStr)
    (hav : w.redisAvailable = true) (hgf : w.getFails = false)
    (hlk : cacheLookup w.cache w.now ("apicache:" ++ req.originalUrl) = some raw)
    (hdf : decodeFails raw) :
    (cacheCheck routePath w req).2 = false := by
  unfold cacheCheck
  by_cases h1 : req.method = "GET" ∧ (!(NO_CACHE.contains routePath)) = true
  · rw [if_pos h1, if_pos hav]
    have hredis : Redis_get w ("apicache:" ++ req.originalUrl) =
        (match JSON_parse raw with
         | some j => j
         | none => Json.str raw) := by
      unfold Redis_get
      rw [if_neg (by simp [hav]), if_neg (by simp [hgf]), hlk]
    rw [hredis]
    cases hp : JSON_parse raw with
    | some j =>
      by_cases htr : jsTruthy j = true
      · rw [if_pos htr]
        exact serveCached_fails_of_decodeFails raw Res.init hdf j (Or.inl hp)
      · rw [if_neg htr]
    | none =>
      by_cases htr : jsTruthy (Json.str raw) = true
      · rw [if_pos htr]
        exact serveCached_fails_of_decodeFails raw Res.init hdf (Json.str raw)
          (Or.inr ⟨hp, rfl⟩)
      · rw [if_neg htr]
  · rw [if_neg h1]

/-! ## C8 — corrupt cache entries take the miss path -/

/-- C8: when a cache-eligible GET finds a stored entry that fails to
decode — a stored string that yields no JSON document, or an envelope
whose `b` field cannot be decoded because `Buffer.from` throws on it (a
missing field, `null`, a boolean, a number, or an object that is
neither array-like nor the Buffer JSON form) — the adapter takes the
miss path: the downstream handler runs and its response is what the
caller receives (handler status, handler body, the MISS marker, and
every collected handler header at its emitted value), with the decode
failure never surfaced as an error. -/
theorem adapter_decode_failure_miss (routePath : String)
    (handler : Req → Except String WebResponse) (w : World) (req : Req)
    (raw : JStr) (wr : WebResponse)
    (hav : w.redisAvailable = true)
    (hgf : w.getFails = false)
    (hlk : cacheLookup w.cache w.now ("apicache:" ++ req.originalUrl) = some raw)
    (hdf : decodeFails raw)
    (hok : handler req = Except.ok wr) :
    (adaptEdgeHandler routePath handler w req).1.statusCode =
      Json.num (wr.status : Int) ∧
    (0 < wr.body.length →
      (adaptEdgeHandler routePath handler w req).1.resBody =
        ResBody.bytes wr.body) ∧
    (wr.body.length = 0 →
      (adaptEdgeHandler routePath handler w req).1.resBody = ResBody.empty) ∧
    getHeader (adaptEdgeHandler routePath handler w req).1.headers "x-cache" =
      some (JStr.plain "MISS") ∧
    (adaptEdgeHandler routePath handler w req).1.sent = true ∧
    (∀ m kv, hdrNameEq "x-cache" m = false →
      (collectHeaders wr.headers).reverse.find?
        (fun e => hdrNameEq e.1 m) = some kv →
      getHeader (adaptEdgeHandler routePath handler w req).1.headers m =
        some kv.2) := by
  have hcc := cacheCheck_decodeFails routePath w req raw hav hgf hlk hdf
  have hres : (adaptEdgeHandler routePath handler w req).1 =
      (if 0 < wr.body.length then
        (Res.setHeader
          (applyHeaders ((cacheCheck routePath w req).1.status
            (Json.num (wr.status : Int))) (collectHeaders wr.headers))
          "x-cache" (JStr.plain "MISS")).send wr.body
      else
        (Res.setHeader
          (applyHeaders ((cacheCheck routePath w req).1.status
            (Json.num (wr.status : Int))) (collectHeaders wr.headers))
          "x-cache" (JStr.plain "MISS")).endRes) := by
    simp only [adaptEdgeHandler, hcc, Bool.false_eq_true, if_false, hok]
  by_cases hb : 0 < wr.body.length
  · rw [if_pos hb] at hres
    refine ⟨?_, fun _ => ?_, fun h0 => absurd h0 (by omega), ?_, ?_, ?_⟩
    · rw [hres]
      show (applyHeaders _ (collectHeaders wr.headers)).statusCode = _
      rw [applyHeaders_statusCode]
      rfl
    · rw [hres]; rfl
    · rw [hres]
      show getHeader (setHeaderList _ "x-cache" (JStr.plain "MISS")) "x-cache" =
        some (JStr.plain "MISS")
      rw [getHeader_setHeaderList, if_pos (by rfl)]
    · rw [hres]; rfl
    · intro m kv hxm hfind
      rw [hres]
      show getHeader (setHeaderList _ "x-cache" (JStr.plain "MISS")) m = some kv.2
      rw [getHeader_setHeaderList, if_neg (by simp [hxm])]
      rw [getHeader_applyHeaders, hfind]
  · rw [if_neg hb] at hres
    refine ⟨?_, fun h0 => absurd h0 hb, fun _ => ?_, ?_, ?_, ?_⟩
    · rw [hres]
      show (applyHeaders _ (collectHeaders wr.headers)).statusCode = _
      rw [applyHeaders_statusCode]
      rfl
    · rw [hres]; rfl
    · rw [hres]
      show getHeader (setHeaderList _ "x-cache" (JStr.plain "MISS")) "x-cache" =
        some (JStr.plain "MISS")
      rw [getHeader_setHeaderList, if_pos (by rfl)]
    · rw [hres]; rfl
    · intro m kv hxm hfind
      rw [hres]
      show getHeader (setHeaderList _ "x-cache" (JStr.plain "MISS")) m = some kv.2
      rw [getHeader_setHeaderList, if_neg (by simp [hxm])]
      rw [getHeader_applyHeaders, hfind]

theorem adapter_decode_failure_miss_witness :
    (adaptEdgeHandler "/api/x" (fun _ => Except.ok ⟨200, [], [1, 2]⟩)
      ⟨true, false, false, 0, [("apicache:/api/x", JStr.plain "garbage", some 100)]⟩
      ⟨"GET", "/api/x", "/api/x"⟩).1.statusCode = Json.num 200 ∧
    getHeader (adaptEdgeHandler "/api/x" (fun _ => Except.ok ⟨200, [], [1, 2]⟩)
      ⟨true, false, false, 0, [("apicache:/api/x", JStr.plain "garbage", some 100)]⟩
      ⟨"GET", "/api/x", "/api/x"⟩).1.headers "x-cache" =
      some (JStr.plain "MISS") :=
  ⟨(adapter_decode_failure_miss "/api/x" (fun _ => Except.ok ⟨200, [], [1, 2]⟩)
      ⟨true, false, false, 0, [("apicache:/api/x", JStr.plain "garbage", some 100)]⟩
      ⟨"GET", "/api/x", "/api/x"⟩ (JStr.plain "garbage") ⟨200, [], [1, 2]⟩
      rfl rfl rfl trivial rfl).1,
   (adapter_decode_failure_miss "/api/x" (fun _ => Except.ok ⟨200, [], [1, 2]⟩)
      ⟨true, false, false, 0, [("apicache:/api/x", JStr.plain "garbage", some 100)]⟩
      ⟨"GET", "/api/x", "/api/x"⟩ (JStr.plain "garbage") ⟨200, [], [1, 2]⟩
      rfl rfl rfl trivial rfl).2.2.2.1⟩

/-! ## C2 — route TTL resolution -/

/-- C2: for every request path the resolved cache TTL is the table entry
on an exact match, else the TTL of the longest matching route prefix in
the policy table, else the default of 120 seconds; in particular
`/api/earthquakes` resolves to 60 and the unlisted `/api/unknown-thing`
to the default. -/
theorem cacheTTL_resolution :
    (∀ path : String, getCacheTTL path = specResolveTTL path) ∧
    getCacheTTL "/api/earthquakes" = 60 ∧
    getCacheTTL "/api/unknown-thing" = 120 :=
  ⟨getCacheTTL_eq_specResolveTTL, by decide, by decide⟩

/-! ## C3 — the cache-write condition -/

theorem lookupExact_mem {t : List (String × Nat)} {p : String} {v : Nat}
    (h : lookupExact t p = some v) : (p, v) ∈ t := by
  induction t with
  | nil => simp [lookupExact] at h
  | cons e rest ih =>
    obtain ⟨k0, v0⟩ := e
    by_cases hk : k0 = p
    · subst hk
      simp [lookupExact] at h
      simp [h]
    · simp [lookupExact, hk] at h
      exact List.mem_cons_of_mem _ (ih h)

theorem cacheTTLs_pos : ∀ e ∈ CACHE_TTLS, 0 < e.2 := by decide

theorem getCacheTTL_pos (path : String) : 0 < getCacheTTL path := by
  unfold getCacheTTL
  rcases hex : lookupExact CACHE_TTLS path with _ | v
  · rcases hf : firstPrefixTTL CACHE_TTLS path with _ | v1
    · decide
    · obtain ⟨k, hmem, _⟩ := firstPrefixTTL_some hf
      exact cacheTTLs_pos _ hmem
  · exact cacheTTLs_pos _ (lookupExact_mem hex)

/-- C3 counterexample: an eligible GET with a 200, non-empty-body
handler response writes nothing when the store client is unavailable,
though the claim's condition list, which does not mention the store,
demands a write. -/
theorem adapter_write_iff_counterexample :
    NO_CACHE.contains "/api/x" = false ∧
    (200 ≤ 200 ∧ 200 < 300) ∧
    0 < ([1] : List Nat).length ∧
    (adaptEdgeHandler "/api/x"
      (fun _ => Except.ok ⟨200, [], [1]⟩)
      ⟨false, false, false, 0, []⟩
      ⟨"GET", "/api/x", "/api/x"⟩).2.cache = [] :=
  ⟨rfl, ⟨by decide, by decide⟩, by decide, rfl⟩

/-- C3 (amended): a cache entry is written iff the request is a GET on a
route outside the no-cache set, the handler response status lies in
[200,300) with a non-empty body, the store client is available, the
write transport succeeds, and the request was not answered from the
cache; in every other case the cache is left unchanged. -/
theorem adapter_write_iff (routePath : String)
    (handler : Req → Except String WebResponse) (w : World) (req : Req) :
    ((cacheCheck routePath w req).2 = true →
      (adaptEdgeHandler routePath handler w req).2 = w) ∧
    (∀ msg, handler req = Except.error msg →
      (adaptEdgeHandler routePath handler w req).2 = w) ∧
    (∀ wr, handler req = Except.ok wr →
      ¬ (req.method = "GET" ∧ NO_CACHE.contains routePath = false ∧
          200 ≤ wr.status ∧ wr.status < 300 ∧ 0 < wr.body.length ∧
          w.redisAvailable = true ∧ w.setFails = false) →
      (adaptEdgeHandler routePath handler w req).2 = w) ∧
    (∀ wr, handler req = Except.ok wr →
      (cacheCheck routePath w req).2 = false →
      req.method = "GET" → NO_CACHE.contains routePath = false →
      200 ≤ wr.status → wr.status < 300 → 0 < wr.body.length →
      w.redisAvailable = true → w.setFails = false →
      (adaptEdgeHandler routePath handler w req).2.cache =
        cacheUpsert w.cache ("apicache:" ++ req.originalUrl)
          (JSON_stringify (envelopeJson wr.status (collectHeaders wr.headers)
            wr.body))
          (some (w.now + getCacheTTL req.path))) := by
  refine ⟨fun hserved => ?_, fun msg herr => ?_, fun wr hok hneg => ?_,
    fun wr hok hcc hget hnc hs1 hs2 hbody hav hsf => ?_⟩
  · simp only [adaptEdgeHandler, hserved, if_true]
  · by_cases hcc : (cacheCheck routePath w req).2 = true
    · simp only [adaptEdgeHandler, hcc, if_true]
    · simp only [Bool.not_eq_true] at hcc
      simp only [adaptEdgeHandler, hcc, Bool.false_eq_true, if_false, herr]
      by_cases hsent : (cacheCheck routePath w req).1.sent = true <;>
        simp [hsent]
  · by_cases hcc : (cacheCheck routePath w req).2 = true
    · simp only [adaptEdgeHandler, hcc, if_true]
    · simp only [Bool.not_eq_true] at hcc
      simp only [adaptEdgeHandler, hcc, Bool.false_eq_true, if_false, hok]
      by_cases hc1 : req.method = "GET" ∧ (!(NO_CACHE.contains routePath)) = true ∧
          200 ≤ wr.status ∧ wr.status < 300 ∧ 0 < wr.body.length
      · rw [if_pos hc1]
        by_cases hav : w.redisAvailable = true
        · rw [if_pos hav]
          have hsf : w.setFails = true := by
            by_cases hsf : w.setFails = true
            · exact hsf
            · exfalso
              refine hneg ⟨hc1.1, ?_, hc1.2.2.1, hc1.2.2.2.1, hc1.2.2.2.2,
                hav, by simpa using hsf⟩
              have := hc1.2.1
              simpa using this
          unfold Redis_set
          rw [if_neg (by simp [hav]), if_pos hsf]
        · rw [if_neg hav]
      · rw [if_neg hc1]
  · simp only [adaptEdgeHandler, hcc, Bool.false_eq_true, if_false, hok]
    have hc1 : req.method = "GET" ∧ (!(NO_CACHE.contains routePath)) = true ∧
        200 ≤ wr.status ∧ wr.status < 300 ∧ 0 < wr.body.length :=
      ⟨hget, by rw [hnc]; rfl, hs1, hs2, hbody⟩
    rw [if_pos hc1, if_pos hav]
    unfold Redis_set
    rw [if_neg (by simp [hav]), if_neg (by simp [hsf])]
    have httl : getCacheTTL req.path ≠ 0 :=
      Nat.pos_iff_ne_zero.mp (getCacheTTL_pos req.path)
    simp only [JSON_stringify, httl, ne_eq, not_false_eq_true, if_true]

/-! ## C1 — store/lookup round trip -/

theorem cacheFind_upsert (entries : List (String × JStr × Option Nat))
    (key : String) (v : JStr) (d : Option Nat) :
    cacheFind (cacheUpsert entries key v d) key = some (v, d) := by
  induction entries with
  | nil => simp [cacheUpsert, cacheFind]
  | cons e rest ih =>
    obtain ⟨k0, v0, d0⟩ := e
    by_cases hk : k0 = key
    · subst hk
      simp [cacheUpsert, cacheFind]
    · simp only [cacheUpsert, if_neg hk]
      simp only [cacheFind, if_neg hk]
      exact ih

theorem cacheLookup_upsert (entries : List (String × JStr × Option Nat))
    (now : Nat) (key : String) (v : JStr) (t : Nat) (h : now < t) :
    cacheLookup (cacheUpsert entries key v (some t)) now key = some v := by
  unfold cacheLookup
  rw [cacheFind_upsert]
  simp [h]

theorem cacheCheck_missing (routePath : String) (w : World) (req : Req)
    (hav : w.redisAvailable = true) (hgf : w.getFails = false)
    (hmiss : cacheLookup w.cache w.now ("apicache:" ++ req.originalUrl) = none) :
    cacheCheck routePath w req = (Res.init, false) := by
  unfold cacheCheck
  by_cases h1 : req.method = "GET" ∧ (!(NO_CACHE.contains routePath)) = true
  · rw [if_pos h1, if_pos hav]
    have hr : Redis_get w ("apicache:" ++ req.originalUrl) = Json.null := by
      unfold Redis_get
      rw [if_neg (by simp [hav]), if_neg (by simp [hgf]), hmiss]
    rw [hr]
    simp [jsTruthy]
  · rw [if_neg h1]

/-- Replaying a stored envelope: the hit path reconstructs the stored
status, sets the stored headers and the HIT marker, and sends the
decoded body. -/
theorem serveCached_envelope (st : Nat) (RH : List (String × JStr))
    (body : List Nat) (r : Res) (hst : (st : Int) ≠ 0) :
    serveCached (envelopeJson st RH body) r =
      (((applyHeaders (r.status (Json.num (st : Int))) RH).setHeader
        "x-cache" (JStr.plain "HIT")).send body, true) := by
  show serveData (envelopeJson st RH body) r = _
  have h1 : serveData (envelopeJson st RH body) r =
      serveH (envelopeJson st RH body)
        (r.status (sValOf (some (Json.num (st : Int))))) := rfl
  have hsval : sValOf (some (Json.num (st : Int))) = Json.num (st : Int) := by
    simp [sValOf, jsTruthy, hst]
  rw [h1, hsval]
  have h2 : serveH (envelopeJson st RH body) (r.status (Json.num (st : Int))) =
      (match (if jsTruthy (Json.obj (RH.map (fun kv => (kv.1, Json.str kv.2))))
          then setHeadersFromJson (r.status (Json.num (st : Int)))
            (jsEntries (Json.obj (RH.map (fun kv => (kv.1, Json.str kv.2)))))
          else Except.ok (r.status (Json.num (st : Int)))) with
        | Except.error rPartial => (rPartial, false)
        | Except.ok r2 => serveB (envelopeJson st RH body) r2) := rfl
  rw [h2, if_pos (show jsTruthy (Json.obj (RH.map
      (fun kv => (kv.1, Json.str kv.2)))) = true from rfl)]
  have h3 : jsEntries (Json.obj (RH.map (fun kv => (kv.1, Json.str kv.2)))) =
      RH.map (fun kv => (kv.1, Json.str kv.2)) := rfl
  rw [h3, setHeadersFromJson_strings]
  show serveB (envelopeJson st RH body)
    (applyHeaders (r.status (Json.num (st : Int))) RH) = _
  unfold serveB
  rfl

/-- C1 (amended): for a cache-eligible GET whose handler response has a
2xx status and non-empty body (stored on a cold key with a healthy
store), a second request for the same path+query before the TTL elapses
replays a response with identical status, byte-identical body, and
identical headers except the `x-cache` observability marker, which reads
MISS on the original reply and HIT on the replay. -/
theorem adapter_roundtrip (routePath : String)
    (handler : Req → Except String WebResponse) (w : World) (req : Req)
    (wr : WebResponse) (t2 : Nat)
    (hget : req.method = "GET")
    (hnc : NO_CACHE.contains routePath = false)
    (hav : w.redisAvailable = true)
    (hgf : w.getFails = false)
    (hsf : w.setFails = false)
    (hmiss : cacheLookup w.cache w.now ("apicache:" ++ req.originalUrl) = none)
    (hok : handler req = Except.ok wr)
    (hs1 : 200 ≤ wr.status) (hs2 : wr.status < 300)
    (hbody : 0 < wr.body.length)
    (ht2 : t2 < w.now + getCacheTTL req.path) :
    (adaptEdgeHandler routePath handler
        { (adaptEdgeHandler routePath handler w req).2 with now := t2 }
        req).1.statusCode =
      (adaptEdgeHandler routePath handler w req).1.statusCode ∧
    (adaptEdgeHandler routePath handler
        { (adaptEdgeHandler routePath handler w req).2 with now := t2 }
        req).1.resBody =
      (adaptEdgeHandler routePath handler w req).1.resBody ∧
    (adaptEdgeHandler routePath handler
        { (adaptEdgeHandler routePath handler w req).2 with now := t2 }
        req).1.resBody = ResBody.bytes wr.body ∧
    (∀ m, hdrNameEq "x-cache" m = false →
      getHeader (adaptEdgeHandler routePath handler
          { (adaptEdgeHandler routePath handler w req).2 with now := t2 }
          req).1.headers m =
        getHeader (adaptEdgeHandler routePath handler w req).1.headers m) ∧
    getHeader (adaptEdgeHandler routePath handler w req).1.headers "x-cache" =
      some (JStr.plain "MISS") ∧
    getHeader (adaptEdgeHandler routePath handler
        { (adaptEdgeHandler routePath handler w req).2 with now := t2 }
        req).1.headers "x-cache" = some (JStr.plain "HIT") ∧
    (adaptEdgeHandler routePath handler
        { (adaptEdgeHandler routePath handler w req).2 with now := t2 }
        req).1.sent = true := by
  have hcc1 := cacheCheck_missing routePath w req hav hgf hmiss
  have hcc2 : (cacheCheck routePath w req).2 = false := by rw [hcc1]
  have hcond : req.method = "GET" ∧ (!(NO_CACHE.contains routePath)) = true ∧
      200 ≤ wr.status ∧ wr.status < 300 ∧ 0 < wr.body.length :=
    ⟨hget, by rw [hnc]; rfl, hs1, hs2, hbody⟩
  have httl : getCacheTTL req.path ≠ 0 :=
    Nat.pos_iff_ne_zero.mp (getCacheTTL_pos req.path)
  have hrun1a : (adaptEdgeHandler routePath handler w req).1 =
      ((applyHeaders (Res.status Res.init (Json.num (wr.status : Int)))
        (collectHeaders wr.headers)).setHeader "x-cache"
          (JStr.plain "MISS")).send wr.body := by
    simp only [adaptEdgeHandler, hcc2, Bool.false_eq_true, if_false, hok, hcc1]
    rw [if_pos hbody]
  have hrun1b : (adaptEdgeHandler routePath handler w req).2 =
      { w with cache := (cacheUpsert w.cache ("apicache:" ++ req.originalUrl)
          (JSON_stringify (envelopeJson wr.status (collectHeaders wr.headers)
            wr.body))
          (some (w.now + getCacheTTL req.path))) } := by
    simp only [adaptEdgeHandler, hcc2, Bool.false_eq_true, if_false, hok]
    rw [if_pos hcond, if_pos hav]
    unfold Redis_set
    rw [if_neg (by simp [hav]), if_neg (by simp [hsf])]
    simp only [JSON_stringify, httl, ne_eq, not_false_eq_true, if_true]
  have hW2 : ({ (adaptEdgeHandler routePath handler w req).2 with
      now := t2 } : World) =
      { w with
        cache := (cacheUpsert w.cache ("apicache:" ++ req.originalUrl)
          (JSON_stringify (envelopeJson wr.status (collectHeaders wr.headers)
            wr.body))
          (some (w.now + getCacheTTL req.path))),
        now := t2 } := by
    rw [hrun1b]
  have hst : (wr.status : Int) ≠ 0 := by
    have h200 : (200 : Int) ≤ (wr.status : Int) := by exact_mod_cast hs1
    omega
  have hredis2 : Redis_get
      { w with
        cache := (cacheUpsert w.cache ("apicache:" ++ req.originalUrl)
          (JSON_stringify (envelopeJson wr.status (collectHeaders wr.headers)
            wr.body))
          (some (w.now + getCacheTTL req.path))),
        now := t2 }
      ("apicache:" ++ req.originalUrl) =
      envelopeJson wr.status (collectHeaders wr.headers) wr.body := by
    unfold Redis_get
    rw [if_neg (by simp [hav]), if_neg (by simp [hgf])]
    show (match cacheLookup
        (cacheUpsert w.cache ("apicache:" ++ req.originalUrl)
          (JSON_stringify (envelopeJson wr.status (collectHeaders wr.headers)
            wr.body))
          (some (w.now + getCacheTTL req.path)))
        t2 ("apicache:" ++ req.originalUrl) with
      | none => Json.null
      | some raw =>
        match JSON_parse raw with
        | some j => j
        | none => Json.str raw) =
      envelopeJson wr.status (collectHeaders wr.headers) wr.body
    rw [cacheLookup_upsert _ _ _ _ _ ht2]
    rfl
  have hcheck2 : cacheCheck routePath
      { w with
        cache := (cacheUpsert w.cache ("apicache:" ++ req.originalUrl)
          (JSON_stringify (envelopeJson wr.status (collectHeaders wr.headers)
            wr.body))
          (some (w.now + getCacheTTL req.path))),
        now := t2 } req =
      (((applyHeaders (Res.status Res.init (Json.num (wr.status : Int)))
        (collectHeaders wr.headers)).setHeader "x-cache"
          (JStr.plain "HIT")).send wr.body, true) := by
    unfold cacheCheck
    rw [if_pos ⟨hget, by rw [hnc]; rfl⟩, if_pos hav, hredis2]
    rw [if_pos (show jsTruthy (envelopeJson wr.status
      (collectHeaders wr.headers) wr.body) = true from rfl)]
    exact serveCached_envelope wr.status (collectHeaders wr.headers)
      wr.body Res.init hst
  have hrun2a : (adaptEdgeHandler routePath handler
      { w with
        cache := (cacheUpsert w.cache ("apicache:" ++ req.originalUrl)
          (JSON_stringify (envelopeJson wr.status (collectHeaders wr.headers)
            wr.body))
          (some (w.now + getCacheTTL req.path))),
        now := t2 } req).1 =
      ((applyHeaders (Res.status Res.init (Json.num (wr.status : Int)))
        (collectHeaders wr.headers)).setHeader "x-cache"
          (JStr.plain "HIT")).send wr.body := by
    simp only [adaptEdgeHandler, hcheck2]
    rfl
  rw [hW2]
  refine ⟨?_, ?_, ?_, ?_, ?_, ?_, ?_⟩
  · rw [hrun1a, hrun2a]; rfl
  · rw [hrun1a, hrun2a]; rfl
  · rw [hrun2a]; rfl
  · intro m hm
    rw [hrun1a, hrun2a]
    show getHeader (setHeaderList _ "x-cache" (JStr.plain "HIT")) m =
      getHeader (setHeaderList _ "x-cache" (JStr.plain "MISS")) m
    rw [getHeader_setHeaderList, getHeader_setHeaderList,
      if_neg (by simp [hm]), if_neg (by simp [hm])]
  · rw [hrun1a]
    show getHeader (setHeaderList _ "x-cache" (JStr.plain "MISS")) "x-cache" =
      some (JStr.plain "MISS")
    rw [getHeader_setHeaderList, if_pos (by rfl)]
  · rw [hrun2a]
    show getHeader (setHeaderList _ "x-cache" (JStr.plain "HIT")) "x-cache" =
      some (JStr.plain "HIT")
    rw [getHeader_setHeaderList, if_pos (by rfl)]
  · rw [hrun2a]; rfl

/-- C1 counterexample: the replayed response does not carry identical
headers — the observability marker reads MISS on the first reply and HIT
on the replay, so the two header maps differ at `x-cache`. -/
theorem adapter_roundtrip_counterexample :
    getHeader (adaptEdgeHandler "/api/x" (fun _ => Except.ok ⟨200, [], [7]⟩)
      ⟨true, false, false, 0, []⟩ ⟨"GET", "/api/x", "/api/x"⟩).1.headers
      "x-cache" = some (JStr.plain "MISS") ∧
    getHeader (adaptEdgeHandler "/api/x" (fun _ => Except.ok ⟨200, [], [7]⟩)
      { (adaptEdgeHandler "/api/x" (fun _ => Except.ok ⟨200, [], [7]⟩)
          ⟨true, false, false, 0, []⟩ ⟨"GET", "/api/x", "/api/x"⟩).2 with
        now := 10 } ⟨"GET", "/api/x", "/api/x"⟩).1.headers "x-cache" =
      some (JStr.plain "HIT") ∧
    some (JStr.plain "MISS") ≠ some (JStr.plain "HIT") :=
  ⟨rfl, rfl, by simp⟩

theorem adapter_roundtrip_witness :
    (adaptEdgeHandler "/api/x" (fun _ => Except.ok ⟨200, [], [7]⟩)
      { (adaptEdgeHandler "/api/x" (fun _ => Except.ok ⟨200, [], [7]⟩)
          ⟨true, false, false, 0, []⟩ ⟨"GET", "/api/x", "/api/x"⟩).2 with
        now := 10 } ⟨"GET", "/api/x", "/api/x"⟩).1.statusCode =
      (adaptEdgeHandler "/api/x" (fun _ => Except.ok ⟨200, [], [7]⟩)
        ⟨true, false, false, 0, []⟩ ⟨"GET", "/api/x", "/api/x"⟩).1.statusCode ∧
    (adaptEdgeHandler "/api/x" (fun _ => Except.ok ⟨200, [], [7]⟩)
      { (adaptEdgeHandler "/api/x" (fun _ => Except.ok ⟨200, [], [7]⟩)
          ⟨true, false, false, 0, []⟩ ⟨"GET", "/api/x", "/api/x"⟩).2 with
        now := 10 } ⟨"GET", "/api/x", "/api/x"⟩).1.resBody =
      ResBody.bytes [7] :=
  ⟨(adapter_roundtrip "/api/x" (fun _ => Except.ok ⟨200, [], [7]⟩)
      ⟨true, false, false, 0, []⟩ ⟨"GET", "/api/x", "/api/x"⟩ ⟨200, [], [7]⟩
      10 rfl rfl rfl rfl rfl rfl rfl (by decide) (by decide) (by decide)
      (by decide)).1,
   (adapter_roundtrip "/api/x" (fun _ => Except.ok ⟨200, [], [7]⟩)
      ⟨true, false, false, 0, []⟩ ⟨"GET", "/api/x", "/api/x"⟩ ⟨200, [], [7]⟩
      10 rfl rfl rfl rfl rfl rfl rfl (by decide) (by decide) (by decide)
      (by decide)).2.2.1⟩

theorem adapter_write_iff_witness :
    (adaptEdgeHandler "/api/earthquakes"
      (fun _ => Except.ok ⟨200, [], [42]⟩)
      ⟨true, false, false, 1000, []⟩
      ⟨"GET", "/api/earthquakes", "/api/earthquakes"⟩).2.cache =
      cacheUpsert [] "apicache:/api/earthquakes"
        (JSON_stringify (envelopeJson 200 (collectHeaders []) [42]))
        (some (1000 + getCacheTTL "/api/earthquakes")) :=
  (adapter_write_iff "/api/earthquakes" (fun _ => Except.ok ⟨200, [], [42]⟩)
    ⟨true, false, false, 1000, []⟩
    ⟨"GET", "/api/earthquakes", "/api/earthquakes"⟩).2.2.2
    ⟨200, [], [42]⟩ rfl rfl rfl rfl (by decide) (by decide) (by decide) rfl rfl
